import Mathlib

/-!
# Verification of the `ink-select-input` selection/windowing state machine

Shallow embedding of `src/SelectInput.tsx` (the Navigator state machine):
the item data model, the windowing function, the `useInput` key handler
(including its two early `return`s and React's batched last-write-wins
semantics for `setState` calls issued inside one handler invocation),
the initial-state computation, and the reset-on-items-change effect.

Machine integers are modelled as `Int`/`Nat`; JavaScript array indexing
that can yield `undefined` is modelled with `Option`.
-/

namespace SelectInput

/-- An option of the list: `key?`, `label`, `value` (`src/SelectInput.tsx`,
`export type Item<V>`). -/
structure Item (V : Type) where
  key : Option String
  label : String
  value : V
deriving DecidableEq, Repr

/-- The `direction` prop: `'row' | 'column'`. -/
inductive Direction where
  | row
  | column
deriving DecidableEq, Repr

/-- A discrete key event as delivered by ink's `useInput`: the printable
character payload (if any) and the named key flags the handler reads.
The handler compares `input` against the one-character strings `'k'`/`'j'`
and the single-character regex `^[1-9]$`, so a single `Option Char` payload
is a faithful model of the strings it can distinguish.  `ret` models
`key.return`. -/
structure KeyEvt where
  input : Option Char
  upArrow : Bool
  downArrow : Bool
  leftArrow : Bool
  rightArrow : Bool
  tab : Bool
  shift : Bool
  ret : Bool
deriving DecidableEq, Repr

/-- Navigator state: the two `useState` integers of the component. -/
structure NavState where
  rotateIndex : Int
  selectedIndex : Int
deriving DecidableEq, Repr

/-- The configuration the state machine reads: `items`, `direction`,
and the optional `limit` prop (`customLimit`). -/
structure Config (V : Type) where
  items : List (Item V)
  direction : Direction
  customLimit : Option Nat

/-- Which of the two observer callbacks are registered
(`typeof onHighlight === 'function'`, `onSelect?.(...)` guards). -/
structure Callbacks where
  onHighlight : Bool
  onSelect : Bool

/-- A recorded callback invocation.  The argument is `Option (Item V)`
because the source indexes arrays with `slicedItems[i]!` and can pass
JavaScript `undefined` (modelled `none`) to a callback. -/
inductive CallbackCall (V : Type) where
  | highlight : Option (Item V) → CallbackCall V
  | select : Option (Item V) → CallbackCall V
deriving DecidableEq, Repr

/-- Model of the external `to-rotated` dependency, `arrayToRotated(a, r)`:
rotate the array so that the element at logical position `i` appears at
position `(i + r) mod n`, i.e. `result[j] = a[(j - r) mod n]`.  This is the
behaviour pinned down by the component: the initial state derivation
(`rotateIndex = lastIndex - initialIndex` must land the initial selection
on `items[initialIndex]`) and the Tab wrap (`rotateIndex - 1` must slide
the window forward by one logical item). -/
def toRotated {α : Type} (a : List α) (r : Int) : List α :=
  match a with
  | [] => []
  | x :: xs =>
      (List.range (x :: xs).length).map fun (j : Nat) =>
        (x :: xs).getD ((((j : Int) - r).emod ((x :: xs).length : Int)).toNat) x

/-- JavaScript array indexing `l[i]` for a possibly negative index:
out-of-range reads give `undefined` (`none`). -/
def iget {α : Type} (l : List α) (i : Int) : Option α :=
  if 0 ≤ i then l.get? i.toNat else none

variable {V : Type}

/-- `hasLimit = typeof customLimit === 'number' && items.length > customLimit`. -/
def hasLimitB (cfg : Config V) : Bool :=
  match cfg.customLimit with
  | some l => decide (cfg.items.length > l)
  | none => false

/-- `limit = hasLimit ? Math.min(customLimit, items.length) : items.length`. -/
def limitN (cfg : Config V) : Nat :=
  match cfg.customLimit with
  | some l => if cfg.items.length > l then min l cfg.items.length else cfg.items.length
  | none => cfg.items.length

/-- The visible slice:
`hasLimit ? arrayToRotated(items, r).slice(0, limit) : items`. -/
def slicedItems (cfg : Config V) (r : Int) : List (Item V) :=
  if hasLimitB cfg then (toRotated cfg.items r).take (limitN cfg) else cfg.items

/-- The guard of the `// Previous` branch:
`input === 'k' || (key.tab && key.shift) || (column && key.upArrow) || (row && key.leftArrow)`. -/
def prevB (cfg : Config V) (e : KeyEvt) : Bool :=
  e.input == some 'k' || (e.tab && e.shift) ||
    (decide (cfg.direction = Direction.column) && e.upArrow) ||
    (decide (cfg.direction = Direction.row) && e.leftArrow)

/-- The guard of the `// Next` branch:
`input === 'j' || key.tab || (column && key.downArrow) || (row && key.rightArrow)`. -/
def nextB (cfg : Config V) (e : KeyEvt) : Bool :=
  e.input == some 'j' || e.tab ||
    (decide (cfg.direction = Direction.column) && e.downArrow) ||
    (decide (cfg.direction = Direction.row) && e.rightArrow)

/-- `Number.parseInt(input, 10)` after the `^[1-9]$` test. -/
def parseDigit (i : Option Char) : Option Nat :=
  match i with
  | some c => if '1' ≤ c ∧ c ≤ '9' then some (c.toNat - 48) else none
  | none => none

/-- The `onHighlight` invocation performed after a Previous/Next update:
`if (typeof onHighlight === 'function') onHighlight(slicedItems[nextSelectedIndex]!)`. -/
def highlightCalls (cb : Callbacks) (cfg : Config V) (r s : Int) : List (CallbackCall V) :=
  if cb.onHighlight then [CallbackCall.highlight (iget (slicedItems cfg r) s)] else []

/-- The digit branch (`^[1-9]$`): select slot `digit - 1` of the visible
slice computed from the *current* `rotateIndex`, skipped when out of range.
No state is written by this branch. -/
def digitCalls (cb : Callbacks) (cfg : Config V) (st : NavState) (e : KeyEvt) :
    List (CallbackCall V) :=
  match parseDigit e.input with
  | some d =>
      let targetIndex := d - 1
      let visibleItems := slicedItems cfg st.rotateIndex
      match visibleItems.get? targetIndex with
      | some selectedItem =>
          if cb.onSelect then [CallbackCall.select (some selectedItem)] else []
      | none => []
  | none => []

/-- The `key.return` branch: `onSelect(slicedItems[selectedIndex]!)` when
`onSelect` is registered.  No state is written by this branch. -/
def returnCalls (cb : Callbacks) (cfg : Config V) (st : NavState) (e : KeyEvt) :
    List (CallbackCall V) :=
  if e.ret then
    if cb.onSelect then
      [CallbackCall.select (iget (slicedItems cfg st.rotateIndex) st.selectedIndex)]
    else []
  else []

/-- Tail of the handler after the two navigation branches: the digit branch
and the return branch read only the closure (`orig`) state and write none. -/
def handleTail (cfg : Config V) (cb : Callbacks) (orig cur : NavState)
    (acc : List (CallbackCall V)) (e : KeyEvt) : NavState × List (CallbackCall V) :=
  (cur, acc ++ digitCalls cb cfg orig e ++ returnCalls cb cfg orig e)

/-- The `// Next` branch.  `orig` is the render-time state captured by the
closure (every read uses it); `cur` is the state as committed so far by
earlier `setState` calls in this handler invocation (React batches the
calls; the last write wins).  The early `return` on
`atLastIndex && !key.tab` aborts the rest of the handler but keeps the
writes already issued. -/
def handleNext (cfg : Config V) (cb : Callbacks) (orig cur : NavState)
    (acc : List (CallbackCall V)) (e : KeyEvt) : NavState × List (CallbackCall V) :=
  if nextB cfg e then
    let atLastIndex : Prop :=
      orig.selectedIndex =
        (if hasLimitB cfg then (limitN cfg : Int) else (cfg.items.length : Int)) - 1
    if atLastIndex ∧ e.tab = false then (cur, acc)
    else
      let nextIndex : Int := if hasLimitB cfg then orig.selectedIndex else 0
      let nextRotateIndex : Int :=
        if atLastIndex then orig.rotateIndex - 1 else orig.rotateIndex
      let nextSelectedIndex : Int :=
        if atLastIndex then nextIndex else orig.selectedIndex + 1
      handleTail cfg cb orig ⟨nextRotateIndex, nextSelectedIndex⟩
        (acc ++ highlightCalls cb cfg nextRotateIndex nextSelectedIndex) e
  else handleTail cfg cb orig cur acc e

/-- One invocation of the `useInput` handler of `SelectInput`: returns the
state as committed at the end of the event (React batched `setState`,
last write wins) together with the sequence of callback invocations, in
order.  The source is four consecutive `if` statements (not `else if`),
so one event may execute several branches; the `// Previous` branch's
early `return` (when at the first index without Shift+Tab) aborts the
whole handler. -/
def handleInput (cfg : Config V) (cb : Callbacks) (st : NavState) (e : KeyEvt) :
    NavState × List (CallbackCall V) :=
  if prevB cfg e then
    let lastIndex : Int :=
      (if hasLimitB cfg then (limitN cfg : Int) else (cfg.items.length : Int)) - 1
    let atFirstIndex : Prop := st.selectedIndex = 0
    if atFirstIndex ∧ ¬(e.tab = true ∧ e.shift = true) then (st, [])
    else
      let nextIndex : Int := if hasLimitB cfg then st.selectedIndex else lastIndex
      let nextRotateIndex : Int :=
        if atFirstIndex then st.rotateIndex + 1 else st.rotateIndex
      let nextSelectedIndex : Int :=
        if atFirstIndex then nextIndex else st.selectedIndex - 1
      handleNext cfg cb st ⟨nextRotateIndex, nextSelectedIndex⟩
        (highlightCalls cb cfg nextRotateIndex nextSelectedIndex) e
  else handleNext cfg cb st st [] e

/-- The initial Navigator state (`useState` initialisers):
`rotateIndex = initialIndex > lastIndex ? lastIndex - initialIndex : 0`,
`selectedIndex = initialIndex ? (initialIndex > lastIndex ? lastIndex : initialIndex) : 0`
(the outer test is JavaScript truthiness of the number `initialIndex`). -/
def initialState (cfg : Config V) (initialIndex : Int) : NavState :=
  let lastIndex : Int := (limitN cfg : Int) - 1
  { rotateIndex := if initialIndex > lastIndex then lastIndex - initialIndex else 0
    selectedIndex :=
      if initialIndex = 0 then 0
      else if initialIndex > lastIndex then lastIndex else initialIndex }

/-- The reset-on-items-change effect (`useEffect` over `[items]`):
`isDeepStrictEqual` over the two arrays of `value`s; on inequality both
state integers are reset to 0.  Node's `isDeepStrictEqual` on arrays of
structural values is deep structural equality, modelled as equality of
the mapped `value` lists. -/
def resetEffect [DecidableEq V] (prev current : List (Item V)) (st : NavState) : NavState :=
  if prev.map Item.value = current.map Item.value then st else ⟨0, 0⟩

/-- Window size in the sense of the spec: `min(limit, itemCount)` where
`limit` is the component's `limit` variable. -/
def windowSize (cfg : Config V) : Nat := min (limitN cfg) cfg.items.length

/-- The claimed state invariant: `selectedIndex` is a valid index into the
windowed view, `0 <= selectedIndex < min(limit, itemCount)`. -/
def validState (cfg : Config V) (st : NavState) : Prop :=
  0 ≤ st.selectedIndex ∧ st.selectedIndex < (windowSize cfg : Int)

/-- Modelled from the spec's words (§4.1): "element at logical position `i`
moves to position `(i - rotateIndex) mod itemCount`", i.e.
`result[p] = a[(p + r) mod n]`.  Stated only to compare the spec's rotation
formula with the code's `toRotated`. -/
def specRotated {α : Type} (a : List α) (r : Int) : List α :=
  match a with
  | [] => []
  | x :: xs =>
      (List.range (x :: xs).length).map fun (p : Nat) =>
        (x :: xs).getD ((((p : Int) + r).emod ((x :: xs).length : Int)).toNat) x

/-! Concrete fixtures used by witnesses, counterexamples and evaluations. -/

def itA : Item String := ⟨none, "A", "a"⟩
def itB : Item String := ⟨none, "B", "b"⟩
def itC : Item String := ⟨none, "C", "c"⟩
def itD : Item String := ⟨none, "D", "d"⟩
def itE : Item String := ⟨none, "E", "e"⟩

/-- Three items, column direction, no `limit` prop. -/
def cfg3 : Config String := ⟨[itA, itB, itC], Direction.column, none⟩

/-- Five items with `limit = 3` (windowing active). -/
def cfg5L3 : Config String := ⟨[itA, itB, itC, itD, itE], Direction.column, some 3⟩

/-- Three items with `limit = 1`. -/
def cfg3L1 : Config String := ⟨[itA, itB, itC], Direction.column, some 1⟩

/-- Empty item list, no `limit` prop. -/
def cfg0 : Config String := ⟨[], Direction.column, none⟩

/-- Both observer callbacks registered. -/
def bothCb : Callbacks := ⟨true, true⟩

def tabEvt : KeyEvt := ⟨none, false, false, false, false, true, false, false⟩
def shiftTabEvt : KeyEvt := ⟨none, false, false, false, false, true, true, false⟩
def kEvt : KeyEvt := ⟨some 'k', false, false, false, false, false, false, false⟩
def upEvt : KeyEvt := ⟨none, true, false, false, false, false, false, false⟩
def downEvt : KeyEvt := ⟨none, false, true, false, false, false, false, false⟩
def retEvt : KeyEvt := ⟨none, false, false, false, false, false, false, true⟩
def digitEvt (c : Char) : KeyEvt := ⟨some c, false, false, false, false, false, false, false⟩

end SelectInput

namespace SelectInput

/-! ## Basic lemmas about the windowing computation -/

theorem limitN_le_length (cfg : Config V) : limitN cfg ≤ cfg.items.length := by
  unfold limitN
  cases cfg.customLimit with
  | none => exact le_rfl
  | some l =>
      by_cases h : cfg.items.length > l
      · simp only [h, if_true]
        exact min_le_right l cfg.items.length
      · simp [h]

theorem windowSize_eq_limitN (cfg : Config V) : windowSize cfg = limitN cfg := by
  unfold windowSize
  exact min_eq_left (limitN_le_length cfg)

theorem limitN_of_not_hasLimit (cfg : Config V) (h : hasLimitB cfg = false) :
    limitN cfg = cfg.items.length := by
  unfold hasLimitB at h
  unfold limitN
  cases hc : cfg.customLimit with
  | none => rfl
  | some l =>
      rw [hc] at h
      simp at h
      simp [hc]
      omega

theorem boundary_eq_limitN (cfg : Config V) :
    (if hasLimitB cfg then (limitN cfg : Int) else (cfg.items.length : Int)) =
      (limitN cfg : Int) := by
  by_cases h : hasLimitB cfg
  · simp [h]
  · simp only [Bool.not_eq_true] at h
    simp [h, limitN_of_not_hasLimit cfg h]

theorem toRotated_length {α : Type} (a : List α) (r : Int) :
    (toRotated a r).length = a.length := by
  cases a with
  | nil => rfl
  | cons x xs => simp only [toRotated, List.length_map, List.length_range]

theorem toRotated_get {α : Type} (a : List α) (r : Int) (j : Nat) (hj : j < a.length) :
    (toRotated a r).get? j = a.get? ((((j : Int) - r).emod (a.length : Int)).toNat) := by
  cases a with
  | nil => simp at hj
  | cons x xs =>
      unfold toRotated
      rw [List.get?_map, List.get?_range hj]
      have hmod : (((j : Int) - r).emod ((x :: xs).length : Int)).toNat < (x :: xs).length := by
        have hpos : (0 : Int) < ((x :: xs).length : Int) := by
          exact_mod_cast Nat.succ_pos xs.length
        have h1 : 0 ≤ ((j : Int) - r).emod ((x :: xs).length : Int) :=
          Int.emod_nonneg _ (by omega)
        have h2 : ((j : Int) - r).emod ((x :: xs).length : Int) < ((x :: xs).length : Int) :=
          Int.emod_lt_of_pos _ hpos
        omega
      rw [Option.map_some']
      rw [List.getD_eq_getElem?_getD]
      rw [List.getElem?_eq_getElem hmod]
      simp [List.get?_eq_getElem?, List.getElem?_eq_getElem hmod]

/-! ## Claim C1: input classification of Shift+Tab

The handler is four consecutive `if` statements, not `else if`: an event
with both `tab` and `shift` set satisfies the `// Previous` guard *and*
the `// Next` guard (`key.tab` is not qualified by `!key.shift`), so both
branches execute.  The committed state is the Next branch's (last
`setState` wins) and `onHighlight` is invoked twice. -/

/-- Claim C1, evaluation at the failing input: on three items with no
limit, at `selectedIndex = 1`, a Shift+Tab event executes both navigation
branches: `onHighlight` fires twice (first with the Previous result `A`,
then with the Next result `C`) and the committed state is the Next
branch's `selectedIndex = 2` — not "Previous only, at most one
`onHighlight`" as claimed. -/
theorem shiftTab_fires_both_branches :
    handleInput cfg3 bothCb ⟨0, 1⟩ shiftTabEvt =
      (⟨0, 2⟩, [CallbackCall.highlight (some itA), CallbackCall.highlight (some itC)]) := by
  decide

/-- Claim C2, evaluation at the failing inputs: with `items = []`,
Return invokes `onSelect` with `undefined` (modelled `none`), and a plain
Down-arrow or Tab moves `selectedIndex` from 0 to 1 and invokes
`onHighlight` with `undefined` — the state is not left unchanged and
callbacks do fire.  (No exception is raised, as claimed.) -/
theorem empty_items_fires_callbacks :
    handleInput cfg0 bothCb ⟨0, 0⟩ retEvt = (⟨0, 0⟩, [CallbackCall.select none]) ∧
    handleInput cfg0 bothCb ⟨0, 0⟩ tabEvt = (⟨0, 1⟩, [CallbackCall.highlight none]) ∧
    handleInput cfg0 bothCb ⟨0, 0⟩ downEvt = (⟨0, 1⟩, [CallbackCall.highlight none]) := by
  decide

/-- Claim C4, evaluation at the failing input: on three items with no
limit, Shift+Tab at `selectedIndex = 0` commits `selectedIndex = 1`
(the Previous branch's wrap to the last index is clobbered by the Next
branch, which also matches `key.tab`), not `selectedIndex = 2` as
claimed.  Plain Previous keys (`k`, Up-arrow in column mode) at the
boundary do leave the state unchanged, as claimed. -/
theorem shiftTab_at_first_no_limit :
    handleInput cfg3 bothCb ⟨0, 0⟩ shiftTabEvt =
      (⟨0, 1⟩, [CallbackCall.highlight (some itC), CallbackCall.highlight (some itB)]) ∧
    handleInput cfg3 bothCb ⟨0, 0⟩ kEvt = (⟨0, 0⟩, []) ∧
    handleInput cfg3 bothCb ⟨0, 0⟩ upEvt = (⟨0, 0⟩, []) := by
  decide

/-- Claim C6, evaluation: with `limit = 3` over five items, Shift+Tab at
the first visible slot commits `(rotateIndex, selectedIndex) = (0, 1)`
— the Previous wrap `(1, 0)` is computed and overwritten by the Next
branch — refuting the Previous-wrap half of the claim.  The Next-wrap
half holds: Tab at the last visible slot commits `(-1, 2)` and
highlights the item scrolled into view (`D`). -/
theorem limit_wrap_behaviour :
    handleInput cfg5L3 bothCb ⟨0, 0⟩ shiftTabEvt =
      (⟨0, 1⟩, [CallbackCall.highlight (some itE), CallbackCall.highlight (some itB)]) ∧
    handleInput cfg5L3 bothCb ⟨0, 2⟩ tabEvt =
      (⟨-1, 2⟩, [CallbackCall.highlight (some itD)]) := by
  decide

/-- Claim C3, counterexample: with an empty item list (and `initialIndex`
0, no limit) the freshly constructed state has `selectedIndex = 0` while
`min(limit, itemCount) = 0`, so the claimed invariant
`0 ≤ selectedIndex < min(limit, itemCount)` already fails at
construction — the claim cannot hold for *every* item list. -/
theorem empty_items_invariant_fails : ¬ validState cfg0 (initialState cfg0 0) := by
  unfold validState
  decide

/-- Claim C7, counterexample: five items, `limit = 3`, starting from the
initial state `(0, 0)`; applying the Next transition (Tab)
`itemCount = 5` times yields `rotateIndex = -3`, not the original 0.
The integer `rotateIndex` does not return to its original value. -/
theorem full_cycle_rotate_counterexample :
    ((fun st => (handleInput cfg5L3 bothCb st tabEvt).1)^[cfg5L3.items.length]
        (initialState cfg5L3 0)).rotateIndex ≠ (initialState cfg5L3 0).rotateIndex := by
  decide

/-- Claim C5, counterexample: (1) the spec's rotation formula
("element at logical position `i` moves to position
`(i - rotateIndex) mod itemCount`") disagrees with the code: on
`[A, B, C]` with `limit = 1` and `rotateIndex = 1` the code's visible
slice is `[C]` while the spec formula gives `[B]`; (2) with no limit
active, `rotateIndex` does not "remain 0": a Tab wrap at the last index
sets it to `-1`. -/
theorem windowing_formula_counterexample :
    slicedItems cfg3L1 1 ≠ (specRotated cfg3L1.items 1).take (limitN cfg3L1) ∧
    hasLimitB cfg3 = false ∧
    (handleInput cfg3 bothCb ⟨0, 2⟩ tabEvt).1.rotateIndex ≠ 0 := by
  decide

theorem toRotated_sub_length {α : Type} (a : List α) (r : Int) :
    toRotated a (r - (a.length : Int)) = toRotated a r := by
  cases a with
  | nil => rfl
  | cons x xs =>
      unfold toRotated
      refine List.map_congr_left fun j hj => ?_
      have heq : ((j : Int) - (r - ((x :: xs).length : Int))).emod ((x :: xs).length : Int) =
          (((j : Int) - r)).emod ((x :: xs).length : Int) := by
        have h2 : (j : Int) - (r - ((x :: xs).length : Int)) =
            ((j : Int) - r) + ((x :: xs).length : Int) * 1 := by ring
        rw [h2]
        show ((j : Int) - r + ((x :: xs).length : Int) * 1) % ((x :: xs).length : Int) =
          ((j : Int) - r) % ((x :: xs).length : Int)
        rw [Int.add_mul_emod_self_left]
      rw [heq]

theorem slicedItems_sub_length (cfg : Config V) (r : Int) :
    slicedItems cfg (r - (cfg.items.length : Int)) = slicedItems cfg r := by
  unfold slicedItems
  rw [toRotated_sub_length]

theorem slicedItems_length (cfg : Config V) (r : Int) :
    (slicedItems cfg r).length = min (limitN cfg) cfg.items.length := by
  unfold slicedItems
  by_cases h : hasLimitB cfg
  · rw [if_pos h, List.length_take, toRotated_length]
  · rw [if_neg h]
    simp only [Bool.not_eq_true] at h
    rw [limitN_of_not_hasLimit cfg h, min_self]

/-- Claim C5, amended: for every item list and every `rotateIndex`, the
visible slice always has length `min(limit, itemCount)`; when a limit
applies the slice is the rotation in which the element at logical
position `i` moves to position `(i + rotateIndex) mod itemCount` (so
slot `j` shows `items[(j - rotateIndex) mod itemCount]` — the spec's
`(i - rotateIndex)` has the sign flipped); when no limit applies the
slice is the full list for *every* `rotateIndex` (the rotation is never
read, although events can still change `rotateIndex`). -/
theorem windowing_characterisation (cfg : Config V) (r : Int) :
    (slicedItems cfg r).length = min (limitN cfg) cfg.items.length ∧
    (hasLimitB cfg = true → ∀ j : Nat, j < limitN cfg →
      (slicedItems cfg r).get? j =
        cfg.items.get? ((((j : Int) - r).emod (cfg.items.length : Int)).toNat)) ∧
    (hasLimitB cfg = false → slicedItems cfg r = cfg.items) := by
  refine ⟨slicedItems_length cfg r, ?_, ?_⟩
  · intro h j hjl
    unfold slicedItems
    rw [if_pos h, List.get?_take hjl]
    have hjn : j < cfg.items.length := lt_of_lt_of_le hjl (limitN_le_length cfg)
    exact toRotated_get cfg.items r j hjn
  · intro h
    unfold slicedItems
    rw [if_neg (by simp [h])]

/-- Claim C5 witness: instantiated on five items with `limit = 3` at
`rotateIndex = -1` and slot 0 (which shows logical item 1, `B`), and on
the no-limit configuration. -/
theorem windowing_characterisation_witness :
    (slicedItems cfg5L3 (-1)).length = min (limitN cfg5L3) cfg5L3.items.length ∧
    (slicedItems cfg5L3 (-1)).get? 0 =
      cfg5L3.items.get? ((((0 : Nat) : Int) - (-1)).emod (cfg5L3.items.length : Int)).toNat ∧
    slicedItems cfg3 9 = cfg3.items :=
  ⟨(windowing_characterisation cfg5L3 (-1)).1,
   (windowing_characterisation cfg5L3 (-1)).2.1 (by decide) 0 (by decide),
   (windowing_characterisation cfg3 9).2.2 (by decide)⟩

theorem prevB_tabEvt (cfg : Config V) : prevB cfg tabEvt = false := by
  unfold prevB tabEvt
  cases cfg.direction <;> simp

theorem nextB_tabEvt (cfg : Config V) : nextB cfg tabEvt = true := by
  unfold nextB tabEvt
  simp

theorem tab_step_at_last (cfg : Config V) (cb : Callbacks) (r : Int)
    (hl : hasLimitB cfg = true) :
    (handleInput cfg cb ⟨r, (limitN cfg : Int) - 1⟩ tabEvt).1 =
      ⟨r - 1, (limitN cfg : Int) - 1⟩ := by
  simp only [handleInput, prevB_tabEvt, Bool.false_eq_true, if_false, handleNext,
    nextB_tabEvt, if_true, hl, handleTail]
  simp [tabEvt]

theorem tab_iterate_at_last (cfg : Config V) (cb : Callbacks) (r : Int)
    (hl : hasLimitB cfg = true) (k : Nat) :
    (fun st => (handleInput cfg cb st tabEvt).1)^[k] ⟨r, (limitN cfg : Int) - 1⟩ =
      ⟨r - (k : Int), (limitN cfg : Int) - 1⟩ := by
  induction k generalizing r with
  | zero => simp
  | succ k ih =>
      rw [Function.iterate_succ_apply]
      simp only [tab_step_at_last cfg cb r hl]
      rw [ih (r - 1)]
      have : r - 1 - (k : Int) = r - ((k + 1 : Nat) : Int) := by push_cast; ring
      rw [this]

/-- Claim C7, amended: with `limit = L < itemCount` the visible slice
always has exactly `L` elements; and applying the Next transition (Tab)
`itemCount` times *from a state at the last visible slot* decreases the
integer `rotateIndex` by exactly `itemCount` while keeping
`selectedIndex` at the last slot — the integer does not return to its
original value, but the rotation is modular, so the *visible slice*
returns to its original value (the full-cycle invariant holds for the
window, not for the raw `rotateIndex`). -/
theorem full_cycle_window (cfg : Config V) (cb : Callbacks) (r : Int)
    (hl : hasLimitB cfg = true) :
    (∀ r' : Int, (slicedItems cfg r').length = limitN cfg) ∧
    (fun st => (handleInput cfg cb st tabEvt).1)^[cfg.items.length]
        ⟨r, (limitN cfg : Int) - 1⟩ =
      ⟨r - (cfg.items.length : Int), (limitN cfg : Int) - 1⟩ ∧
    slicedItems cfg (r - (cfg.items.length : Int)) = slicedItems cfg r := by
  refine ⟨?_, ?_, slicedItems_sub_length cfg r⟩
  · intro r'
    rw [slicedItems_length cfg r']
    exact min_eq_left (limitN_le_length cfg)
  · exact tab_iterate_at_last cfg cb r hl cfg.items.length

/-- Claim C7 witness: five items, `limit = 3`, starting at the last
visible slot with `rotateIndex = 0`: the slice has 3 elements, five Tabs
drive `rotateIndex` to `-5`, and the visible slice at `-5` equals the
one at `0`. -/
theorem full_cycle_window_witness :
    (slicedItems cfg5L3 7).length = limitN cfg5L3 ∧
    (fun st => (handleInput cfg5L3 bothCb st tabEvt).1)^[cfg5L3.items.length]
        ⟨0, (limitN cfg5L3 : Int) - 1⟩ =
      ⟨0 - (cfg5L3.items.length : Int), (limitN cfg5L3 : Int) - 1⟩ ∧
    slicedItems cfg5L3 (0 - (cfg5L3.items.length : Int)) = slicedItems cfg5L3 0 := by
  obtain ⟨h1, h2, h3⟩ := full_cycle_window cfg5L3 bothCb 0 (by decide)
  exact ⟨h1 7, h2, h3⟩

theorem one_le_limitN (cfg : Config V) (hne : 0 < cfg.items.length)
    (hlim : cfg.customLimit ≠ some 0) : 1 ≤ limitN cfg := by
  unfold limitN
  cases hc : cfg.customLimit with
  | none => exact hne
  | some l =>
      have hl0 : l ≠ 0 := by
        intro h
        exact hlim (by rw [hc, h])
      by_cases h : cfg.items.length > l
      · simp only [h, if_true]
        have : 1 ≤ l := Nat.one_le_iff_ne_zero.mpr hl0
        omega
      · simp only [h, if_false]
        exact hne

/-- Claim C3, amended: for every *nonempty* item list, every configured
limit that is at least 1 (or absent), and every *nonnegative*
`initialIndex`, the invariant `0 ≤ selectedIndex < min(limit, itemCount)`
holds at construction and is preserved by every input event (including
the double-branch execution of Shift+Tab).  As stated over *every* item
list and initialIndex the claim fails: see the counterexample. -/
theorem invariant_preservation (cfg : Config V) (cb : Callbacks) (i0 : Int)
    (st : NavState) (e : KeyEvt) (hne : 0 < cfg.items.length)
    (hlim : cfg.customLimit ≠ some 0) :
    (0 ≤ i0 → validState cfg (initialState cfg i0)) ∧
    (validState cfg st → validState cfg (handleInput cfg cb st e).1) := by
  have hW : 1 ≤ limitN cfg := one_le_limitN cfg hne hlim
  have hWmin : windowSize cfg = limitN cfg := windowSize_eq_limitN cfg
  constructor
  · intro h0
    unfold validState initialState
    rw [hWmin]
    dsimp only
    split_ifs <;> constructor <;> omega
  · intro hv
    unfold validState at hv ⊢
    rw [hWmin] at hv ⊢
    obtain ⟨h0, h1⟩ := hv
    simp only [handleInput, handleNext, handleTail, boundary_eq_limitN]
    split_ifs <;> dsimp only <;> constructor <;> omega

/-- Claim C3 witness: five items with `limit = 3`, `initialIndex = 4`,
and a Tab event at the last visible slot. -/
theorem invariant_preservation_witness :
    validState cfg5L3 (initialState cfg5L3 4) ∧
    validState cfg5L3 (handleInput cfg5L3 bothCb ⟨0, 2⟩ tabEvt).1 := by
  obtain ⟨h1, h2⟩ :=
    invariant_preservation cfg5L3 bothCb 4 ⟨0, 2⟩ tabEvt (by decide) (by decide)
  refine ⟨h1 (by decide), h2 ?_⟩
  unfold validState
  decide

/-- Claim C8: the reset effect compares only the ordered sequences of
item `value`s: if the sequences are equal (labels and keys may differ
arbitrarily) the state is kept, and if they differ the state is reset to
`(0, 0)`. -/
theorem reset_on_value_change [DecidableEq V] (prev current : List (Item V))
    (st : NavState) :
    (prev.map Item.value = current.map Item.value → resetEffect prev current st = st) ∧
    (prev.map Item.value ≠ current.map Item.value → resetEffect prev current st = ⟨0, 0⟩) := by
  unfold resetEffect
  constructor <;> intro h <;> simp [h]

/-- Claim C8 witness: items whose labels and keys all changed but whose
value sequence is identical keep the state `(5, 3)`; reordering the
values resets to `(0, 0)`. -/
theorem reset_on_value_change_witness :
    resetEffect [Item.mk none "A" 1, Item.mk none "B" 2]
        [Item.mk (some "k1") "X" 1, Item.mk (some "k2") "Y" 2] ⟨5, 3⟩ = ⟨5, 3⟩ ∧
    resetEffect [Item.mk none "A" 1, Item.mk none "B" 2]
        [Item.mk none "A" 2, Item.mk none "B" 1] ⟨5, 3⟩ = ⟨0, 0⟩ :=
  ⟨(reset_on_value_change [Item.mk none "A" 1, Item.mk none "B" 2]
      [Item.mk (some "k1") "X" 1, Item.mk (some "k2") "Y" 2] ⟨5, 3⟩).1 (by decide),
   (reset_on_value_change [Item.mk none "A" 1, Item.mk none "B" 2]
      [Item.mk none "A" 2, Item.mk none "B" 1] ⟨5, 3⟩).2 (by decide)⟩

/-- Claim C10: the reset check is by deep structural equality of the
value sequences, not identity of the item objects: replacing the item
list with *different* item records (`prev ≠ current`) whose (structured,
nested) values are equal in the same order preserves the state. -/
theorem deep_equal_values_preserve_state (prev current : List (Item (List (List Nat))))
    (st : NavState) (hdistinct : prev ≠ current)
    (hvals : prev.map Item.value = current.map Item.value) :
    resetEffect prev current st = st := by
  unfold resetEffect
  rw [if_pos hvals]

/-- Claim C10 witness: two single-item lists built from distinct records
(different labels) whose nested-list values are structurally equal; the
state `(7, 2)` is preserved. -/
theorem deep_equal_values_preserve_state_witness :
    resetEffect [Item.mk none "first" [[1, 2], [3]]]
        [Item.mk none "second" [[1, 2], [3]]] ⟨7, 2⟩ = ⟨7, 2⟩ :=
  deep_equal_values_preserve_state [Item.mk none "first" [[1, 2], [3]]]
    [Item.mk none "second" [[1, 2], [3]]] ⟨7, 2⟩ (by decide) (by decide)


theorem prevB_digitEvt (cfg : Config V) (c : Char) (h9 : c ≤ '9') :
    prevB cfg (digitEvt c) = false := by
  have hk : c ≠ 'k' := by
    intro h
    rw [h] at h9
    exact absurd h9 (by decide)
  unfold prevB digitEvt
  cases cfg.direction <;> simp [hk]

theorem nextB_digitEvt (cfg : Config V) (c : Char) (h9 : c ≤ '9') :
    nextB cfg (digitEvt c) = false := by
  have hj : c ≠ 'j' := by
    intro h
    rw [h] at h9
    exact absurd h9 (by decide)
  unfold nextB digitEvt
  cases cfg.direction <;> simp [hj]

/-- Claim C9: a digit key `n` (1–9, an event with no modifier flags)
fires `onSelect` with the item at slot `n - 1` of the current visible
slice exactly when `n - 1 < m` (the slice size), fires nothing
otherwise, and in both cases leaves `rotateIndex` and `selectedIndex`
unchanged.  Here `c` is the digit character, so `n - 1 = c.toNat - 49`. -/
theorem digit_selects_visible_slot (cfg : Config V) (cb : Callbacks) (st : NavState)
    (c : Char) (h1 : '1' ≤ c) (h9 : c ≤ '9') (hsel : cb.onSelect = true) :
    (c.toNat - 49 < (slicedItems cfg st.rotateIndex).length →
      handleInput cfg cb st (digitEvt c) =
        (st, [CallbackCall.select ((slicedItems cfg st.rotateIndex).get? (c.toNat - 49))])) ∧
    ((slicedItems cfg st.rotateIndex).length ≤ c.toNat - 49 →
      handleInput cfg cb st (digitEvt c) = (st, [])) := by
  have hret : (digitEvt c).ret = false := rfl
  have htab : (digitEvt c).tab = false := rfl
  have hbase : handleInput cfg cb st (digitEvt c) =
      (st, digitCalls cb cfg st (digitEvt c)) := by
    simp only [handleInput, handleNext, handleTail, returnCalls,
      prevB_digitEvt cfg c h9, nextB_digitEvt cfg c h9, hret,
      Bool.false_eq_true, if_false]
    simp
  have hparse : parseDigit (digitEvt c).input = some (c.toNat - 48) := by
    show parseDigit (some c) = some (c.toNat - 48)
    simp only [parseDigit]
    rw [if_pos ⟨h1, h9⟩]
  have htarget : c.toNat - 48 - 1 = c.toNat - 49 := by omega
  constructor
  · intro hin
    rw [hbase]
    unfold digitCalls
    rw [hparse]
    simp only [htarget]
    cases hget : (slicedItems cfg st.rotateIndex).get? (c.toNat - 49) with
    | none =>
        rw [List.get?_eq_none] at hget
        omega
    | some it => simp [hsel]
  · intro hout
    rw [hbase]
    unfold digitCalls
    rw [hparse]
    simp only [htarget]
    cases hget : (slicedItems cfg st.rotateIndex).get? (c.toNat - 49) with
    | none => simp
    | some it =>
        obtain ⟨hlt, -⟩ := List.get?_eq_some.mp hget
        omega

/-- Claim C9 witness: digit `2` on five items with `limit = 3` selects
slot 1 (`B`) and leaves the state unchanged; digit `9` (slice size 3) is
ignored. -/
theorem digit_selects_visible_slot_witness :
    handleInput cfg5L3 bothCb ⟨0, 1⟩ (digitEvt '2') =
      (⟨0, 1⟩, [CallbackCall.select (some itB)]) ∧
    handleInput cfg5L3 bothCb ⟨0, 1⟩ (digitEvt '9') = (⟨0, 1⟩, []) := by
  constructor
  · have h := (digit_selects_visible_slot cfg5L3 bothCb ⟨0, 1⟩ '2'
      (by decide) (by decide) rfl).1 (by decide)
    rw [h]
    decide
  · exact (digit_selects_visible_slot cfg5L3 bothCb ⟨0, 1⟩ '9'
      (by decide) (by decide) rfl).2 (by decide)

end SelectInput
